import Mathlib

/-!
Shallow embedding of `src/lambda_function.py` (a Factur-X PDF generation
service) and verification of its specification claims.

Modelling conventions:

* Byte strings are `List (Fin 256)`.
* The local filesystem is a total map `String → Option Bytes`; writing,
  renaming and unlinking are pure updates.  OS-level I/O failures of these
  local-file primitives (disk full, permission errors) are not modelled;
  the failure sources the program guards against — external subprocess
  invocations (`gs`, `pdffonts`) and external library calls (`facturx`,
  ReportLab font registration) — are modelled by an oracle record `Env`
  whose fields return `Option`/`Except` values (`none`/`.error` meaning
  the call raised or exited non-zero).
* Python `str` manipulation (`split`, `lower`, `in`) is modelled by
  structurally recursive functions over `List Char` so that every
  definition evaluates by kernel reduction.
* `base64.b64encode`/`b64decode` are modelled by an executable RFC 4648
  encoder and a decoder replaying CPython's non-strict `a2b_base64`
  (`validate=False`, the mode the program uses): characters outside the
  alphabet are skipped with no state change, a `=` before two data
  characters of the current group is ignored, a completed pad sequence
  ends decoding successfully discarding the remaining characters, and a
  dangling group at end of input raises.
-/

/-- A byte. -/
abbrev Byte := Fin 256

/-- A byte string. -/
abbrev Bytes := List Byte

/-- Truncate a natural number into a byte. -/
def mkByte (n : Nat) : Byte := ⟨n % 256, Nat.mod_lt _ (by decide)⟩

/-- Characters Python's `str.split()` (and `str.strip()`) treat as
whitespace (ASCII fragment). -/
def pyIsSpace (c : Char) : Bool :=
  c = ' ' || c = '\t' || c = '\n' || c = '\r' || c = '\x0b' || c = '\x0c'

/-- ASCII lower-casing of one character, as Python's `str.lower()` acts on
ASCII data (font names in this program are ASCII). -/
def pyLowerChar (c : Char) : Char :=
  if 'A' ≤ c ∧ c ≤ 'Z' then Char.ofNat (c.toNat + 32) else c

/-- Python's `s.split('\n')`: split at every newline, keeping empty parts. -/
def splitNl : List Char → List (List Char)
  | [] => [[]]
  | c :: cs =>
    let r := splitNl cs
    if c = '\n' then [] :: r
    else
      match r with
      | [] => [[c]]
      | g :: gs => (c :: g) :: gs

/-- Helper for `pySplitWS`: accumulates the current (reversed) token. -/
def splitWSAux : List Char → List Char → List (List Char)
  | [], acc => if acc = [] then [] else [acc.reverse]
  | c :: cs, acc =>
    if pyIsSpace c then
      if acc = [] then splitWSAux cs [] else acc.reverse :: splitWSAux cs []
    else splitWSAux cs (c :: acc)

/-- Python's `s.split()` with no separator: maximal runs of
non-whitespace characters, empties dropped. -/
def pySplitWS (l : List Char) : List (List Char) := splitWSAux l []

/-- Python's substring test `needle in hay`. -/
def hasSubstr (hay needle : List Char) : Bool :=
  if needle.isPrefixOf hay then true
  else
    match hay with
    | [] => false
    | _ :: t => hasSubstr t needle

/-- The base64 alphabet: the character for a sextet value. -/
def sextetChar (n : Nat) : Char :=
  if n < 26 then Char.ofNat (65 + n)
  else if n < 52 then Char.ofNat (97 + (n - 26))
  else if n < 62 then Char.ofNat (48 + (n - 52))
  else if n = 62 then '+' else '/'

/-- The sextet value of a base64 alphabet character, `none` for a
character outside the alphabet. -/
def sextetOf? (c : Char) : Option Nat :=
  if 'A' ≤ c ∧ c ≤ 'Z' then some (c.toNat - 65)
  else if 'a' ≤ c ∧ c ≤ 'z' then some (c.toNat - 97 + 26)
  else if '0' ≤ c ∧ c ≤ '9' then some (c.toNat - 48 + 52)
  else if c = '+' then some 62
  else if c = '/' then some 63
  else none

/-- RFC 4648 base64 encoding of a byte string, three bytes at a time,
with `=` padding; models `base64.b64encode`. -/
def b64encodeChunks : Bytes → List Char
  | b0 :: b1 :: b2 :: rest =>
    sextetChar (b0.val / 4) ::
    sextetChar ((b0.val % 4) * 16 + b1.val / 16) ::
    sextetChar ((b1.val % 16) * 4 + b2.val / 64) ::
    sextetChar (b2.val % 64) :: b64encodeChunks rest
  | [b0, b1] =>
    [sextetChar (b0.val / 4), sextetChar ((b0.val % 4) * 16 + b1.val / 16),
     sextetChar ((b1.val % 16) * 4), '=']
  | [b0] =>
    [sextetChar (b0.val / 4), sextetChar ((b0.val % 4) * 16), '=', '=']
  | [] => []

/-- `base64.b64encode(...).decode('utf-8')` as a Lean function. -/
def b64encode (b : Bytes) : String := String.mk (b64encodeChunks b)

/-- The bytes CPython's `a2b_base64` has emitted for the current group of
sextets when the group ends: one byte once two sextets are in, a second
after the third, a third after the fourth. -/
def emitQuadBytes : List Nat → Bytes
  | [s0, s1] => [mkByte (s0 * 4 + s1 / 16)]
  | [s0, s1, s2] => [mkByte (s0 * 4 + s1 / 16), mkByte ((s1 % 16) * 16 + s2 / 4)]
  | [s0, s1, s2, s3] =>
    [mkByte (s0 * 4 + s1 / 16), mkByte ((s1 % 16) * 16 + s2 / 4),
     mkByte ((s2 % 4) * 64 + s3)]
  | _ => []

/-- The state machine of CPython's non-strict `a2b_base64` over the
alphabet-filtered stream: `quad` holds the sextets of the current
4-character group, `pads` the `=` count seen since the last data
character.  A `=` before two data characters is ignored; a `=` completing
a pad sequence (`quad.length + pads + 1 ≥ 4`) ends decoding successfully
with the bytes of the partial group, discarding the rest; a dangling
group at the end of input means the call raises (`none`). -/
def a2bAux : List Char → List Nat → Nat → Option Bytes
  | [], quad, _ => if quad.length = 0 then some [] else none
  | c :: cs, quad, pads =>
    if c = '=' then
      if 2 ≤ quad.length then
        if 4 ≤ quad.length + pads + 1 then some (emitQuadBytes quad)
        else a2bAux cs quad (pads + 1)
      else a2bAux cs quad pads
    else
      match sextetOf? c with
      | none => a2bAux cs quad pads
      | some s =>
        if (quad ++ [s]).length = 4 then
          (a2bAux cs [] 0).map (fun bs => emitQuadBytes (quad ++ [s]) ++ bs)
        else a2bAux cs (quad ++ [s]) 0

/-- Is a character kept by `base64.b64decode`'s pre-filter (alphabet
character or padding)?  Other characters are skipped by `a2b_base64`
with no effect on its state, so filtering them out first is equivalent. -/
def b64keep (c : Char) : Bool := (sextetOf? c).isSome || c = '='

/-- Model of `base64.b64decode` with its default `validate=False`, as the
program calls it: run CPython's lenient decoding state machine on the
alphabet-filtered characters; `none` models the call raising
`binascii.Error`. -/
def b64decode (s : String) : Option Bytes :=
  a2bAux (s.toList.filter b64keep) [] 0

/-- The local filesystem: a total map from paths to file contents. -/
def FS := String → Option Bytes

/-- Read a file (`open(path).read()` / the content a subprocess sees). -/
def fsRead (fs : FS) (p : String) : Option Bytes := fs p

/-- `os.path.exists`. -/
def fsExists (fs : FS) (p : String) : Bool := (fs p).isSome

/-- Write a file (`open(path, 'wb').write` / `tempfile` write / tool output). -/
def fsWrite (fs : FS) (p : String) (b : Bytes) : FS :=
  fun q => if q = p then some b else fs q

/-- `os.remove` / `os.unlink`. -/
def fsRemove (fs : FS) (p : String) : FS :=
  fun q => if q = p then none else fs q

/-- `os.rename src dst` (both call sites rename an existing file; a missing
source, which would raise in Python, leaves the map unchanged here). -/
def fsRename (fs : FS) (src dst : String) : FS :=
  match fs src with
  | some b => fsWrite (fsRemove fs src) dst b
  | none => fs

/-- A JSON value, as produced by `json.loads`. -/
inductive JVal where
  | jstr : String → JVal
  | jbool : Bool → JVal
  | jint : Int → JVal
  | jnull : JVal
  | jarr : List JVal → JVal
  | jobj : List (String × JVal) → JVal

/-- Python truthiness (`bool(v)`) of a JSON value. -/
def truthy : JVal → Bool
  | JVal.jstr s => s ≠ ""
  | JVal.jbool b => b
  | JVal.jint n => n ≠ 0
  | JVal.jnull => false
  | JVal.jarr l => !l.isEmpty
  | JVal.jobj l => !l.isEmpty

/-- `body.get(key, dflt)` on a parsed JSON object (later duplicate keys
win, as in `json.loads`). -/
def jsonGet (kvs : List (String × JVal)) (key : String) (dflt : JVal) : JVal :=
  match List.lookup key kvs.reverse with
  | some v => v
  | none => dflt

/-- `base64.b64decode` applied to a JSON value: decodes a string, raises
(`.error`) on undecodable strings and on non-string values. -/
def b64decodeValue : JVal → Except String Bytes
  | JVal.jstr s =>
    match b64decode s with
    | some b => Except.ok b
    | none => Except.error "Invalid base64-encoded string"
  | _ => Except.error "argument should be a bytes-like object or ASCII string"

/-- Oracle for the program's external collaborators.  Each field gives the
outcome of one kind of external call; `none` / `.error` model the call
raising an exception (or, for `subprocess.run(check=True)`, exiting
non-zero). -/
structure Env where
  /-- The fresh name `tempfile.NamedTemporaryFile` picks for this
  invocation. -/
  tempName : String
  /-- The bytes ReportLab's `canvas.save()` writes for the placeholder
  metadata PDF. -/
  canvasBytes : Bytes
  /-- Outcome of `pdfmetrics.registerFont` (`false` = raised, caught). -/
  registerFont : String → String → Bool
  /-- Outcome of `subprocess.run(gs_cmd, check=True)`, as a function of
  the argument vector and the content of the input file named in it; on
  success, the returned bytes are what `gs` wrote to its `-sOutputFile`. -/
  gs : List String → Option Bytes → Option Bytes
  /-- Outcome (captured stdout) of the `gs -dNODISPLAY` font-info probe,
  as a function of the inspected file's content. -/
  gsFontInfo : Option Bytes → Option String
  /-- Outcome (captured stdout) of `pdffonts`, as a function of the
  inspected file's content. -/
  pdffonts : Option Bytes → Option String
  /-- Outcome of `facturx.generate_from_binary(pdf, xml, check_xsd=...,
  flavor=..., level=...)`; `.error` carries `str(e)` of the raised
  exception. -/
  facturx : Bytes → Bytes → JVal → JVal → JVal → Except String Bytes

/-- Path of the bundled sRGB ICC profile
(`os.path.join('python', 'icc_profiles', 'sRGB.icc')`). -/
def sRGBProfilePath : String := "python/icc_profiles/sRGB.icc"

/-- Path of the bundled Gray ICC profile. -/
def grayProfilePath : String := "python/icc_profiles/Gray.icc"

/-- The bundled LiberationSans font table of `register_liberation_fonts`:
style, ReportLab font name, file path. -/
def liberationFontList : List (String × String × String) :=
  [("regular", "LiberationSans", "python/fonts/LiberationSans-Regular.ttf"),
   ("bold", "LiberationSans-Bold", "python/fonts/LiberationSans-Bold.ttf"),
   ("italic", "LiberationSans-Italic", "python/fonts/LiberationSans-Italic.ttf"),
   ("bolditalic", "LiberationSans-BoldItalic", "python/fonts/LiberationSans-BoldItalic.ttf")]

/-- `register_liberation_fonts` (lines 22-49): for each bundled font file
present on disk, try to register it; registration failures and missing
files are skipped.  Returns the style-to-font-name mapping. -/
def register_liberation_fonts (env : Env) (fs : FS) : List (String × String) :=
  liberationFontList.filterMap (fun sp =>
    if fsExists fs sp.2.2 then
      if env.registerFont sp.2.1 sp.2.2 then some (sp.1, sp.2.1) else none
    else none)

/-- One line of `pdffonts` output (lines 142-146): a non-blank line whose
8th whitespace-separated field contains `no` (lower-cased) contributes its
first field as a non-embedded font name. -/
def lineFont (line : List Char) : Option (List Char) :=
  if line.any (fun c => !(pyIsSpace c)) then
    let parts := pySplitWS line
    if 8 ≤ parts.length ∧ hasSubstr ((parts.getD 7 []).map pyLowerChar) ['n', 'o'] = true then
      some (parts.getD 0 [])
    else none
  else none

/-- Parse `pdffonts` tabular output (lines 140-146): skip the first two
header lines, collect the font names `lineFont` accepts. -/
def parse_pdffonts (out : String) : List String :=
  (((splitNl out.toList).drop 2).filterMap lineFont).map String.mk

/-- `analyze_fonts_in_pdf` (lines 111-159): probe the PDF with `gs`, then
`pdffonts`; on any failure of either subprocess return the empty set,
otherwise the parsed set of non-embedded font names.  `content` is the
content of the file at `pdf_path`. -/
def analyze_fonts_in_pdf (env : Env) (content : Option Bytes) : List String :=
  match env.gsFontInfo content with
  | none => []
  | some _ =>
    match env.pdffonts content with
    | none => []
    | some out => parse_pdffonts out

/-- The `gs` argument vector of the ICC-profile embedding call
(lines 89-98). -/
def iccEmbedCmd (output_path temp_output : String) : List String :=
  ["gs", "-dPDFA=3", "-dBATCH", "-dNOPAUSE", "-dQUIET",
   "-dPDFACompatibilityPolicy=1",
   "-sColorConversionStrategy=UseDeviceIndependentColor",
   "-sOutputICCProfile=" ++ sRGBProfilePath,
   "-dPDFSETTINGS=/prepress",
   "-sDEVICE=pdfwrite",
   "-sOutputFile=" ++ output_path,
   temp_output]

/-- `create_pdf_with_icc_profiles` (lines 51-109): write the ReportLab
placeholder PDF to `output_path`; if both ICC profiles exist, move it
aside and ask `gs` to rewrite it with profiles embedded, restoring the
original on failure and deleting the moved-aside copy on success. -/
def create_pdf_with_icc_profiles (env : Env) (fs : FS) (output_path : String) : FS :=
  let fs1 := fsWrite fs output_path env.canvasBytes
  if fsExists fs1 sRGBProfilePath ∧ fsExists fs1 grayProfilePath then
    let temp_output := output_path ++ ".temp.pdf"
    let fs2 := fsRename fs1 output_path temp_output
    match env.gs (iccEmbedCmd output_path temp_output) (fsRead fs2 temp_output) with
    | some gsOut => fsRemove (fsWrite fs2 output_path gsOut) temp_output
    | none => fsRename fs2 temp_output output_path
  else fs1

/-- The fixed head of the final `gs` rewrite command (lines 194-199). -/
def gsBaseCmd : List String :=
  ["gs", "-dPDFA=3", "-dBATCH", "-dNOPAUSE", "-dQUIET",
   "-dPDFACompatibilityPolicy=1", "-dPDFSETTINGS=/prepress", "-sDEVICE=pdfwrite"]

/-- Should a non-embedded font be substituted (line 204): its lower-cased
name contains `helvetica` or `arial`? -/
def wantsSub (font : String) : Bool :=
  hasSubstr (font.toList.map pyLowerChar) "helvetica".toList ||
  hasSubstr (font.toList.map pyLowerChar) "arial".toList

/-- The `-dSubstituteFontName` directive for one font (line 206). -/
def subDirective (font : String) : String :=
  "-dSubstituteFontName=/" ++ font ++ "/LiberationSans"

/-- Build the final `gs` rewrite command (lines 194-209): base flags, one
substitution directive per matching non-embedded font, output file and
input file. -/
def build_gs_cmd (fonts : List String) (final_pdf_path temp_in_path : String) : List String :=
  (gsBaseCmd ++ (if fonts.isEmpty then [] else (fonts.filter wantsSub).map subDirective)) ++
    ["-sOutputFile=" ++ final_pdf_path, temp_in_path]

/-- `os.path.exists`-guarded `os.unlink` over the cleanup list
(lines 225-232). -/
def cleanupTemps (fs : FS) (paths : List String) : FS :=
  paths.foldl (fun acc p => if fsExists acc p then fsRemove acc p else acc) fs

/-- `enhance_pdf_for_compliance` (lines 161-232): write the input bytes to
a temp file, register fonts, inventory non-embedded fonts, build the ICC
placeholder, then run the final `gs` rewrite of the *input* temp file; on
success return the rewritten bytes, on any failure of that rewrite return
the input bytes; always delete the temp files afterwards.  The result of
the ICC step at `temp_out_path` is never read back.  Every fallible call
inside the stage is caught, so the stage itself is total. -/
def enhance_pdf_for_compliance (env : Env) (fs : FS) (input_pdf_bytes : Bytes) : Bytes × FS :=
  let temp_in_path := env.tempName
  let fs1 := fsWrite fs temp_in_path input_pdf_bytes
  let temp_out_path := temp_in_path ++ ".enhanced.pdf"
  let font_mapping := register_liberation_fonts env fs1
  let non_embedded_fonts := analyze_fonts_in_pdf env (fsRead fs1 temp_in_path)
  let fs2 := create_pdf_with_icc_profiles env fs1 temp_out_path
  let final_pdf_path := temp_in_path ++ ".final.pdf"
  let gs_cmd := build_gs_cmd non_embedded_fonts final_pdf_path temp_in_path
  let attempt : Except String Bytes × FS :=
    match env.gs gs_cmd (fsRead fs2 temp_in_path) with
    | some gsOut =>
      let fs3 := fsWrite fs2 final_pdf_path gsOut
      match fsRead fs3 final_pdf_path with
      | some enhanced => (Except.ok enhanced, fs3)
      | none => (Except.error "No such file or directory", fs3)
    | none => (Except.error "Command returned non-zero exit status", fs2)
  let result := match attempt.1 with
    | Except.ok b => b
    | Except.error _ => input_pdf_bytes
  have _hmapping := font_mapping
  (result, cleanupTemps attempt.2 [temp_in_path, temp_out_path, temp_in_path ++ ".final.pdf"])

/-- The fixed response headers (every branch of `lambda_handler`). -/
def stdHeaders : List (String × String) :=
  [("Content-Type", "application/json"), ("Access-Control-Allow-Origin", "*")]

/-- A response JSON body: either an error envelope or a success envelope
with the base64 PDF and the fixed message. -/
inductive RespBody where
  | err : String → RespBody
  | success : String → String → RespBody
deriving DecidableEq

/-- A handler response: status code, headers, JSON body. -/
structure Response where
  statusCode : Nat
  headers : List (String × String)
  body : RespBody
deriving DecidableEq

/-- `lambda_handler` (lines 234-316).  `event_body` is the outcome of
`json.loads(event.get('body', '{}'))`: `.error msg` models the parse
raising (a missing `body` key parses to the empty object `.jobj []`).
The whole body runs inside `try`, whose `except` wraps any raised
message in a 500 response. -/
def lambda_handler (env : Env) (fs : FS) (event_body : Except String JVal) :
    Response × FS :=
  let attempt : Except String (Response × FS) :=
    match event_body with
    | Except.error msg => Except.error msg
    | Except.ok bodyVal =>
      match bodyVal with
      | JVal.jobj kvs =>
        let pdf_base64 := jsonGet kvs "pdfBase64" (JVal.jstr "")
        let xml_base64 := jsonGet kvs "xmlBase64" (JVal.jstr "")
        let check_xsd := jsonGet kvs "checkXsd" (JVal.jbool true)
        let flavor := jsonGet kvs "flavor" (JVal.jstr "factur-x")
        let level := jsonGet kvs "level" (JVal.jstr "en16931")
        if truthy pdf_base64 = false ∨ truthy xml_base64 = false then
          Except.ok (⟨400, stdHeaders, RespBody.err "Missing PDF or XML data"⟩, fs)
        else
          match b64decodeValue pdf_base64 with
          | Except.error e => Except.error e
          | Except.ok pdf_binary =>
            match b64decodeValue xml_base64 with
            | Except.error e => Except.error e
            | Except.ok xml_binary =>
              match env.facturx pdf_binary xml_binary check_xsd flavor level with
              | Except.error e => Except.error e
              | Except.ok facturx_pdf =>
                let r := enhance_pdf_for_compliance env fs facturx_pdf
                Except.ok (⟨200, stdHeaders,
                  RespBody.success (b64encode r.1)
                    "Factur-X PDF generated successfully with enhanced compliance"⟩, r.2)
      | _ => Except.error "object has no attribute get"
  match attempt with
  | Except.ok rfs => rfs
  | Except.error msg =>
    (⟨500, stdHeaders, RespBody.err ("Failed to generate Factur-X PDF: " ++ msg)⟩, fs)

/-- Modelled from the spec (section 4.4 / section 9): the
compliance-enhancement stage with the ICC-profile placeholder step
(`create_pdf_with_icc_profiles`) removed; every other step is unchanged.
Claim C4 compares the stage against this variant. -/
def enhance_without_icc_step (env : Env) (fs : FS) (input_pdf_bytes : Bytes) : Bytes × FS :=
  let temp_in_path := env.tempName
  let fs1 := fsWrite fs temp_in_path input_pdf_bytes
  let temp_out_path := temp_in_path ++ ".enhanced.pdf"
  let font_mapping := register_liberation_fonts env fs1
  let non_embedded_fonts := analyze_fonts_in_pdf env (fsRead fs1 temp_in_path)
  let final_pdf_path := temp_in_path ++ ".final.pdf"
  let gs_cmd := build_gs_cmd non_embedded_fonts final_pdf_path temp_in_path
  let attempt : Except String Bytes × FS :=
    match env.gs gs_cmd (fsRead fs1 temp_in_path) with
    | some gsOut =>
      let fs3 := fsWrite fs1 final_pdf_path gsOut
      match fsRead fs3 final_pdf_path with
      | some enhanced => (Except.ok enhanced, fs3)
      | none => (Except.error "No such file or directory", fs3)
    | none => (Except.error "Command returned non-zero exit status", fs1)
  let result := match attempt.1 with
    | Except.ok b => b
    | Except.error _ => input_pdf_bytes
  have _hmapping := font_mapping
  (result, cleanupTemps attempt.2 [temp_in_path, temp_out_path, temp_in_path ++ ".final.pdf"])

/-- The marker prefix of a substitution directive. -/
def subPre : String := "-dSubstituteFontName="

/-- Is a command-line token a font substitution directive? -/
def isSubDirective (s : String) : Bool := subPre.data.isPrefixOf s.data

/-- The empty filesystem, used by concrete witnesses. -/
def emptyFS : FS := fun _ => none

/-- A concrete oracle for witnesses: every external subprocess fails, the
embedder succeeds with an empty PDF. -/
def witnessEnv : Env :=
  ⟨"/tmp/tmp123.pdf", [], fun _ _ => true, fun _ _ => none, fun _ => none,
   fun _ => none, fun _ _ _ _ _ => Except.ok []⟩

/-- A sample `pdffonts` output table used by the C5 witness. -/
def samplePdffontsOut : String :=
  "name type enc emb sub uni id obj\n--- ---\nHelvetica T1 C a b c d no\nFoo T1 C a b c d yes\n"

/-- Oracle for the C5 witness: both inspection calls succeed. -/
def env5 : Env :=
  { witnessEnv with gsFontInfo := fun _ => some "",
                    pdffonts := fun _ => some samplePdffontsOut }

/-- Oracle for the C7 witness: the font-info probe succeeds but
`pdffonts` fails. -/
def env7 : Env := { witnessEnv with gsFontInfo := fun _ => some "info" }

/-- Oracle for the C8 witness: the embedder rejects its input. -/
def env8 : Env :=
  { witnessEnv with facturx := fun _ _ _ _ _ => Except.error "XSD validation failed" }

/-- Every base64 alphabet character decodes back to its sextet value. -/
theorem sextetOf_sextetChar : ∀ n : Nat, n < 64 → sextetOf? (sextetChar n) = some n := by
  decide

/-- Alphabet characters survive the decoder's pre-filter. -/
theorem b64keep_sextetChar : ∀ n : Nat, n < 64 → b64keep (sextetChar n) = true := by
  decide

/-- Alphabet characters are never the padding character. -/
theorem sextetChar_ne_pad : ∀ n : Nat, n < 64 → ¬ (sextetChar n = '=') := by
  decide

/-- Every character emitted by the encoder survives the decoder's
pre-filter. -/
theorem b64keep_of_mem_encode (b : Bytes) : ∀ c ∈ b64encodeChunks b, b64keep c = true := by
  induction b using b64encodeChunks.induct with
  | case1 b0 b1 b2 rest ih =>
    intro c hc
    have h0 := b0.isLt; have h1 := b1.isLt; have h2 := b2.isLt
    simp only [b64encodeChunks, List.mem_cons] at hc
    rcases hc with h | h | h | h | h
    · exact h ▸ b64keep_sextetChar _ (by omega)
    · exact h ▸ b64keep_sextetChar _ (by omega)
    · exact h ▸ b64keep_sextetChar _ (by omega)
    · exact h ▸ b64keep_sextetChar _ (by omega)
    · exact ih c h
  | case2 b0 b1 =>
    intro c hc
    have h0 := b0.isLt; have h1 := b1.isLt
    simp only [b64encodeChunks, List.mem_cons, List.not_mem_nil, or_false] at hc
    rcases hc with h | h | h | h
    · exact h ▸ b64keep_sextetChar _ (by omega)
    · exact h ▸ b64keep_sextetChar _ (by omega)
    · exact h ▸ b64keep_sextetChar _ (by omega)
    · exact h ▸ rfl
  | case3 b0 =>
    intro c hc
    have h0 := b0.isLt
    simp only [b64encodeChunks, List.mem_cons, List.not_mem_nil, or_false] at hc
    rcases hc with h | h | h | h
    · exact h ▸ b64keep_sextetChar _ (by omega)
    · exact h ▸ b64keep_sextetChar _ (by omega)
    · exact h ▸ rfl
    · exact h ▸ rfl
  | case4 =>
    intro c hc
    simp [b64encodeChunks] at hc

/-- Stepping the decoding machine over a data character that does not
complete a group. -/
theorem a2bAux_step_data (c : Char) (cs : List Char) (quad : List Nat)
    (pads : Nat) (s : Nat) (hpad : ¬ (c = '=')) (hs : sextetOf? c = some s)
    (hlen : ¬ ((quad ++ [s]).length = 4)) :
    a2bAux (c :: cs) quad pads = a2bAux cs (quad ++ [s]) 0 := by
  simp only [a2bAux, if_neg hpad, hs]
  rw [if_neg hlen]

/-- Stepping the decoding machine over a data character that completes a
group of four. -/
theorem a2bAux_step_quad (c : Char) (cs : List Char) (quad : List Nat)
    (pads : Nat) (s : Nat) (hpad : ¬ (c = '=')) (hs : sextetOf? c = some s)
    (hlen : (quad ++ [s]).length = 4) :
    a2bAux (c :: cs) quad pads =
      (a2bAux cs [] 0).map (fun bs => emitQuadBytes (quad ++ [s]) ++ bs) := by
  simp only [a2bAux, if_neg hpad, hs]
  rw [if_pos hlen]

/-- Stepping the decoding machine over a padding character that does not
yet complete a pad sequence. -/
theorem a2bAux_step_pad_cont (cs : List Char) (quad : List Nat) (pads : Nat)
    (h2 : 2 ≤ quad.length) (h4 : ¬ (4 ≤ quad.length + pads + 1)) :
    a2bAux ('=' :: cs) quad pads = a2bAux cs quad (pads + 1) := by
  simp only [a2bAux, eq_self_iff_true, if_true]
  rw [if_pos h2, if_neg h4]

/-- A padding character completing a pad sequence ends decoding with the
partial group's bytes, ignoring the remaining characters. -/
theorem a2bAux_step_pad_done (cs : List Char) (quad : List Nat) (pads : Nat)
    (h2 : 2 ≤ quad.length) (h4 : 4 ≤ quad.length + pads + 1) :
    a2bAux ('=' :: cs) quad pads = some (emitQuadBytes quad) := by
  simp only [a2bAux, eq_self_iff_true, if_true]
  rw [if_pos h2, if_pos h4]

/-- Running the decoding machine on the encoder's raw character stream
recovers the bytes. -/
theorem a2bAux_encode (b : Bytes) : a2bAux (b64encodeChunks b) [] 0 = some b := by
  induction b using b64encodeChunks.induct with
  | case1 b0 b1 b2 rest ih =>
    have h0 := b0.isLt; have h1 := b1.isLt; have h2 := b2.isLt
    simp only [b64encodeChunks]
    rw [a2bAux_step_data _ _ [] 0 _ (sextetChar_ne_pad _ (by omega))
          (sextetOf_sextetChar (b0.val / 4) (by omega)) (by simp)]
    simp only [List.nil_append]
    rw [a2bAux_step_data _ _ [b0.val / 4] 0 _ (sextetChar_ne_pad _ (by omega))
          (sextetOf_sextetChar ((b0.val % 4) * 16 + b1.val / 16) (by omega)) (by simp)]
    simp only [List.cons_append, List.nil_append]
    rw [a2bAux_step_data _ _ [b0.val / 4, (b0.val % 4) * 16 + b1.val / 16] 0 _
          (sextetChar_ne_pad _ (by omega))
          (sextetOf_sextetChar ((b1.val % 16) * 4 + b2.val / 64) (by omega)) (by simp)]
    simp only [List.cons_append, List.nil_append]
    rw [a2bAux_step_quad _ _
          [b0.val / 4, (b0.val % 4) * 16 + b1.val / 16, (b1.val % 16) * 4 + b2.val / 64] 0 _
          (sextetChar_ne_pad _ (by omega))
          (sextetOf_sextetChar (b2.val % 64) (by omega)) (by simp),
        ih]
    simp only [List.cons_append, List.nil_append, Option.map_some', emitQuadBytes, mkByte,
      Option.some.injEq, List.cons.injEq, Fin.mk.injEq, Fin.ext_iff,
      and_self, and_true, true_and]
    omega
  | case2 b0 b1 =>
    have h0 := b0.isLt; have h1 := b1.isLt
    simp only [b64encodeChunks]
    rw [a2bAux_step_data _ _ [] 0 _ (sextetChar_ne_pad _ (by omega))
          (sextetOf_sextetChar (b0.val / 4) (by omega)) (by simp)]
    simp only [List.nil_append]
    rw [a2bAux_step_data _ _ [b0.val / 4] 0 _ (sextetChar_ne_pad _ (by omega))
          (sextetOf_sextetChar ((b0.val % 4) * 16 + b1.val / 16) (by omega)) (by simp)]
    simp only [List.cons_append, List.nil_append]
    rw [a2bAux_step_data _ _ [b0.val / 4, (b0.val % 4) * 16 + b1.val / 16] 0 _
          (sextetChar_ne_pad _ (by omega))
          (sextetOf_sextetChar ((b1.val % 16) * 4) (by omega)) (by simp)]
    simp only [List.cons_append, List.nil_append]
    rw [a2bAux_step_pad_done _
          [b0.val / 4, (b0.val % 4) * 16 + b1.val / 16, (b1.val % 16) * 4] 0
          (by simp) (by simp)]
    simp only [emitQuadBytes, mkByte, Option.some.injEq, List.cons.injEq,
      Fin.mk.injEq, Fin.ext_iff, and_self, and_true, true_and]
    omega
  | case3 b0 =>
    have h0 := b0.isLt
    simp only [b64encodeChunks]
    rw [a2bAux_step_data _ _ [] 0 _ (sextetChar_ne_pad _ (by omega))
          (sextetOf_sextetChar (b0.val / 4) (by omega)) (by simp)]
    simp only [List.nil_append]
    rw [a2bAux_step_data _ _ [b0.val / 4] 0 _ (sextetChar_ne_pad _ (by omega))
          (sextetOf_sextetChar ((b0.val % 4) * 16) (by omega)) (by simp)]
    simp only [List.cons_append, List.nil_append]
    rw [a2bAux_step_pad_cont _ [b0.val / 4, (b0.val % 4) * 16] 0 (by simp) (by simp),
        a2bAux_step_pad_done _ [b0.val / 4, (b0.val % 4) * 16] 1 (by simp) (by simp)]
    simp only [emitQuadBytes, mkByte, Option.some.injEq, List.cons.injEq,
      Fin.mk.injEq, Fin.ext_iff, and_self, and_true, true_and]
    omega
  | case4 => rfl

/-- Round trip: decoding an encoded byte string gives back the bytes. -/
theorem b64_roundtrip (b : Bytes) : b64decode (b64encode b) = some b := by
  unfold b64decode b64encode
  have htl : (String.mk (b64encodeChunks b)).toList = b64encodeChunks b := rfl
  rw [htl, List.filter_eq_self.mpr (fun c hc => b64keep_of_mem_encode b c hc)]
  exact a2bAux_encode b

/-- Strings of different length differ. -/
theorem str_ne_of_length {a b : String} (h : a.length ≠ b.length) : a ≠ b :=
  fun e => h (e ▸ rfl)

/-- Appending a nonempty suffix changes a string. -/
theorem append_suffix_ne (t a : String) (h : a.length ≠ 0) : t ++ a ≠ t :=
  str_ne_of_length (by rw [String.length_append]; omega)

/-- Appending suffixes of different length gives different strings. -/
theorem append_suffix_ne_append (t : String) {a b : String}
    (h : a.length ≠ b.length) : t ++ a ≠ t ++ b :=
  str_ne_of_length (by rw [String.length_append, String.length_append]; omega)

/-- Point evaluation of the cleanup loop: every path on the list is gone,
every other path keeps its content. -/
theorem cleanupTemps_apply (paths : List String) (fs : FS) (q : String) :
    cleanupTemps fs paths q = if q ∈ paths then none else fs q := by
  induction paths generalizing fs with
  | nil => simp [cleanupTemps]
  | cons p ps ih =>
    have hstep : cleanupTemps fs (p :: ps) =
        cleanupTemps (if fsExists fs p then fsRemove fs p else fs) ps := rfl
    rw [hstep, ih]
    by_cases hmem : q ∈ ps
    · simp [hmem]
    · by_cases hqp : q = p
      · subst hqp
        by_cases hex : fsExists fs q
        · simp [hmem, hex, fsRemove]
        · have hq : fs q = none := Option.not_isSome_iff_eq_none.mp (by simpa [fsExists] using hex)
          simp [hmem, hex, hq]
      · by_cases hex : fsExists fs p
        · simp [hmem, hqp, hex, fsRemove]
        · simp [hmem, hqp, hex]

/-- The placeholder written by the canvas step is what the rename moves
aside. -/
theorem create_icc_rename_eq (env : Env) (fs : FS) (out : String) :
    fsRename (fsWrite fs out env.canvasBytes) out (out ++ ".temp.pdf") =
      fsWrite (fsRemove (fsWrite fs out env.canvasBytes) out)
        (out ++ ".temp.pdf") env.canvasBytes := by
  unfold fsRename
  simp [fsWrite]

/-- The moved-aside placeholder file holds the canvas bytes. -/
theorem create_icc_read_tmp (env : Env) (fs : FS) (out : String) :
    fsRead (fsWrite (fsRemove (fsWrite fs out env.canvasBytes) out)
      (out ++ ".temp.pdf") env.canvasBytes) (out ++ ".temp.pdf") = some env.canvasBytes := by
  simp [fsRead, fsWrite]

/-- `create_pdf_with_icc_profiles` touches only its output path and the
moved-aside `.temp.pdf` path. -/
theorem create_icc_apply_ne (env : Env) (fs : FS) (out q : String)
    (h1 : q ≠ out) (h2 : q ≠ out ++ ".temp.pdf") :
    create_pdf_with_icc_profiles env fs out q = fs q := by
  simp only [create_pdf_with_icc_profiles, create_icc_rename_eq, fsRead]
  rw [show fsWrite (fsRemove (fsWrite fs out env.canvasBytes) out)
        (out ++ ".temp.pdf") env.canvasBytes (out ++ ".temp.pdf") = some env.canvasBytes
      from by simp [fsWrite]]
  by_cases hp : fsExists (fsWrite fs out env.canvasBytes) sRGBProfilePath = true ∧
      fsExists (fsWrite fs out env.canvasBytes) grayProfilePath = true
  · rw [if_pos hp]
    cases hgs : env.gs (iccEmbedCmd out (out ++ ".temp.pdf")) (some env.canvasBytes) with
    | some gsOut => simp [fsWrite, fsRemove, h1, h2]
    | none =>
      rw [show fsRename (fsWrite (fsRemove (fsWrite fs out env.canvasBytes) out)
            (out ++ ".temp.pdf") env.canvasBytes) (out ++ ".temp.pdf") out =
          fsWrite (fsRemove (fsWrite (fsRemove (fsWrite fs out env.canvasBytes) out)
            (out ++ ".temp.pdf") env.canvasBytes) (out ++ ".temp.pdf")) out env.canvasBytes
        from by unfold fsRename; simp [fsWrite]]
      simp [fsWrite, fsRemove, h1, h2]
  · rw [if_neg hp]
    simp [fsWrite, h1]

/-- After `create_pdf_with_icc_profiles`, the `.temp.pdf` scratch path is
either deleted or was never created. -/
theorem create_icc_apply_tmp (env : Env) (fs : FS) (out : String)
    (hne : out ++ ".temp.pdf" ≠ out) :
    create_pdf_with_icc_profiles env fs out (out ++ ".temp.pdf") = none ∨
    create_pdf_with_icc_profiles env fs out (out ++ ".temp.pdf") = fs (out ++ ".temp.pdf") := by
  simp only [create_pdf_with_icc_profiles, create_icc_rename_eq, fsRead]
  rw [show fsWrite (fsRemove (fsWrite fs out env.canvasBytes) out)
        (out ++ ".temp.pdf") env.canvasBytes (out ++ ".temp.pdf") = some env.canvasBytes
      from by simp [fsWrite]]
  by_cases hp : fsExists (fsWrite fs out env.canvasBytes) sRGBProfilePath = true ∧
      fsExists (fsWrite fs out env.canvasBytes) grayProfilePath = true
  · rw [if_pos hp]
    cases hgs : env.gs (iccEmbedCmd out (out ++ ".temp.pdf")) (some env.canvasBytes) with
    | some gsOut => left; simp [fsWrite, fsRemove]
    | none =>
      rw [show fsRename (fsWrite (fsRemove (fsWrite fs out env.canvasBytes) out)
            (out ++ ".temp.pdf") env.canvasBytes) (out ++ ".temp.pdf") out =
          fsWrite (fsRemove (fsWrite (fsRemove (fsWrite fs out env.canvasBytes) out)
            (out ++ ".temp.pdf") env.canvasBytes) (out ++ ".temp.pdf")) out env.canvasBytes
        from by unfold fsRename; simp [fsWrite]]
      left; simp [fsWrite, fsRemove, hne]
  · rw [if_neg hp]
    right; simp [fsWrite, hne]

/-- Length of the `.enhanced.pdf` suffix. -/
theorem len_enhanced : (".enhanced.pdf" : String).length = 13 := rfl

/-- Length of the `.temp.pdf` suffix. -/
theorem len_temp : (".temp.pdf" : String).length = 9 := rfl

/-- Length of the `.final.pdf` suffix. -/
theorem len_final : (".final.pdf" : String).length = 10 := rfl

/-- The four per-invocation scratch paths are pairwise distinct. -/
theorem tpaths_ne (t : String) :
    t ≠ t ++ ".enhanced.pdf" ∧
    t ≠ t ++ ".enhanced.pdf" ++ ".temp.pdf" ∧
    t ≠ t ++ ".final.pdf" ∧
    t ++ ".enhanced.pdf" ≠ t ++ ".enhanced.pdf" ++ ".temp.pdf" ∧
    t ++ ".enhanced.pdf" ≠ t ++ ".final.pdf" ∧
    t ++ ".enhanced.pdf" ++ ".temp.pdf" ≠ t ++ ".final.pdf" := by
  refine ⟨?_, ?_, ?_, ?_, ?_, ?_⟩ <;>
    (apply str_ne_of_length;
     simp only [String.length_append, len_enhanced, len_temp, len_final];
     omega)

/-- The bytes the final rewrite reads as its input file are the stage's
input bytes, whether or not the ICC step ran. -/
theorem enhance_read_after_icc (env : Env) (fs : FS) (input : Bytes) :
    fsRead (create_pdf_with_icc_profiles env (fsWrite fs env.tempName input)
      (env.tempName ++ ".enhanced.pdf")) env.tempName = some input := by
  have h := create_icc_apply_ne env (fsWrite fs env.tempName input)
    (env.tempName ++ ".enhanced.pdf") env.tempName
    (tpaths_ne env.tempName).1 (tpaths_ne env.tempName).2.1
  unfold fsRead
  rw [h]
  simp [fsWrite]

/-- Claim C4 core: the stage's output bytes coincide with the output of
the variant whose ICC-profile step is removed. -/
theorem enhance_eq_without_icc (env : Env) (fs : FS) (input : Bytes) :
    (enhance_pdf_for_compliance env fs input).1 =
    (enhance_without_icc_step env fs input).1 := by
  have hread := enhance_read_after_icc env fs input
  have hread1 : fsRead (fsWrite fs env.tempName input) env.tempName = some input := by
    simp [fsRead, fsWrite]
  simp only [enhance_pdf_for_compliance, enhance_without_icc_step]
  rw [hread, hread1]
  cases env.gs (build_gs_cmd (analyze_fonts_in_pdf env (some input))
      (env.tempName ++ ".final.pdf") env.tempName) (some input) with
  | some gsOut => simp [fsRead, fsWrite]
  | none => rfl

/-- If a filesystem agrees with the original outside the four scratch
paths, none of which pre-existed, then running the cleanup loop restores
the original filesystem exactly. -/
theorem cleanup_restore (fs A : FS) (t out tmp fin : String)
    (h1 : fs t = none) (h2 : fs out = none) (h3 : fs tmp = none) (h4 : fs fin = none)
    (hA : ∀ q, q ≠ t → q ≠ out → q ≠ tmp → q ≠ fin → A q = fs q)
    (hAtmp : A tmp = none ∨ A tmp = fs tmp) :
    cleanupTemps A [t, out, fin] = fs := by
  funext q
  rw [cleanupTemps_apply]
  by_cases hq1 : q = t
  · subst hq1; simp [h1]
  · by_cases hq2 : q = out
    · subst hq2; simp [h2]
    · by_cases hq4 : q = fin
      · subst hq4; simp [h4]
      · have hmem : q ∉ [t, out, fin] := by simp [hq1, hq2, hq4]
        rw [if_neg hmem]
        by_cases hq3 : q = tmp
        · rw [hq3]
          rcases hAtmp with h | h
          · rw [h, h3]
          · exact h
        · exact hA q hq1 hq2 hq3 hq4

/-- Writing does not disturb other paths. -/
theorem fsWrite_apply_ne (fs : FS) (p : String) (b : Bytes) (q : String)
    (h : q ≠ p) : fsWrite fs p b q = fs q := by
  simp [fsWrite, h]

/-- Reading back a write. -/
theorem fsWrite_apply_self (fs : FS) (p : String) (b : Bytes) :
    fsWrite fs p b p = some b := by
  simp [fsWrite]

/-- Claim C3 core: the compliance-enhancement stage restores the
filesystem exactly, provided its four scratch paths were fresh. -/
theorem enhance_restores_fs (env : Env) (fs : FS) (input : Bytes)
    (h1 : fs env.tempName = none)
    (h2 : fs (env.tempName ++ ".enhanced.pdf") = none)
    (h3 : fs (env.tempName ++ ".enhanced.pdf" ++ ".temp.pdf") = none)
    (h4 : fs (env.tempName ++ ".final.pdf") = none) :
    (enhance_pdf_for_compliance env fs input).2 = fs := by
  obtain ⟨n1, n2, n3, n4, n5, n6⟩ := tpaths_ne env.tempName
  have hread := enhance_read_after_icc env fs input
  have hread1 : fsRead (fsWrite fs env.tempName input) env.tempName = some input := by
    simp [fsRead, fsWrite]
  simp only [enhance_pdf_for_compliance]
  rw [hread, hread1]
  cases env.gs (build_gs_cmd (analyze_fonts_in_pdf env (some input))
      (env.tempName ++ ".final.pdf") env.tempName) (some input) with
  | some gsOut =>
    dsimp only
    rw [show fsRead (fsWrite (create_pdf_with_icc_profiles env
          (fsWrite fs env.tempName input) (env.tempName ++ ".enhanced.pdf"))
          (env.tempName ++ ".final.pdf") gsOut) (env.tempName ++ ".final.pdf") = some gsOut
        from by simp [fsRead, fsWrite]]
    dsimp only
    refine cleanup_restore fs _ env.tempName (env.tempName ++ ".enhanced.pdf")
      (env.tempName ++ ".enhanced.pdf" ++ ".temp.pdf") (env.tempName ++ ".final.pdf")
      h1 h2 h3 h4 ?_ ?_
    · intro q hqt hqo hqtmp hqf
      have e1 := create_icc_apply_ne env (fsWrite fs env.tempName input)
        (env.tempName ++ ".enhanced.pdf") q hqo hqtmp
      rw [fsWrite_apply_ne _ _ _ _ hqf, e1, fsWrite_apply_ne _ _ _ _ hqt]
    · rcases create_icc_apply_tmp env (fsWrite fs env.tempName input)
        (env.tempName ++ ".enhanced.pdf") (Ne.symm n4) with h | h
      · left; rw [fsWrite_apply_ne _ _ _ _ n6]; exact h
      · right
        rw [fsWrite_apply_ne _ _ _ _ n6, h, fsWrite_apply_ne _ _ _ _ (Ne.symm n2)]
  | none =>
    dsimp only
    refine cleanup_restore fs _ env.tempName (env.tempName ++ ".enhanced.pdf")
      (env.tempName ++ ".enhanced.pdf" ++ ".temp.pdf") (env.tempName ++ ".final.pdf")
      h1 h2 h3 h4 ?_ ?_
    · intro q hqt hqo hqtmp hqf
      have e1 := create_icc_apply_ne env (fsWrite fs env.tempName input)
        (env.tempName ++ ".enhanced.pdf") q hqo hqtmp
      rw [e1, fsWrite_apply_ne _ _ _ _ hqt]
    · rcases create_icc_apply_tmp env (fsWrite fs env.tempName input)
        (env.tempName ++ ".enhanced.pdf") (Ne.symm n4) with h | h
      · left; exact h
      · right
        rw [h, fsWrite_apply_ne _ _ _ _ (Ne.symm n2)]

/-- A list is a prefix of itself extended. -/
theorem isPrefixOf_append_self (a b : List Char) : a.isPrefixOf (a ++ b) = true := by
  induction a with
  | nil => simp [List.isPrefixOf]
  | cons c cs ih => simp [List.isPrefixOf, ih]

/-- Strings with equal data are equal. -/
theorem string_data_inj {a b : String} (h : a.data = b.data) : a = b :=
  congrArg String.mk h

/-- Every substitution directive is recognised by `isSubDirective`. -/
theorem isSubDirective_subDirective (f : String) :
    isSubDirective (subDirective f) = true := by
  unfold isSubDirective subDirective
  rw [String.data_append, String.data_append]
  rw [show ("-dSubstituteFontName=/" : String).data =
      subPre.data ++ ['/'] from rfl]
  rw [List.append_assoc, List.append_assoc]
  exact isPrefixOf_append_self _ _

/-- `subDirective` is injective. -/
theorem subDirective_inj {f g : String} (h : subDirective f = subDirective g) : f = g := by
  unfold subDirective at h
  have hd : (("-dSubstituteFontName=/" : String).data ++ f.data) ++ ("/LiberationSans" : String).data =
      (("-dSubstituteFontName=/" : String).data ++ g.data) ++ ("/LiberationSans" : String).data := by
    have := congrArg String.data h
    rwa [String.data_append, String.data_append, String.data_append, String.data_append] at this
  exact string_data_inj (List.append_cancel_left (List.append_cancel_right hd))

/-- The output-file token is never a substitution directive. -/
theorem isSubDirective_output (p : String) :
    isSubDirective ("-sOutputFile=" ++ p) = false := rfl

/-- No fixed token of the final rewrite command is a substitution
directive. -/
theorem gsBaseCmd_no_directive : ∀ s ∈ gsBaseCmd, isSubDirective s = false := by
  decide

/-- An all-whitespace line yields no fields. -/
theorem pySplitWS_nil_of_not_any (l : List Char)
    (h : l.any (fun c => !(pyIsSpace c)) = false) : pySplitWS l = [] := by
  unfold pySplitWS
  induction l with
  | nil => rfl
  | cons c cs ih =>
    rw [List.any_cons, Bool.or_eq_false_iff] at h
    have hc : pyIsSpace c = true := by
      rcases h with ⟨h1, _⟩
      simpa using h1
    show splitWSAux (c :: cs) [] = []
    rw [show splitWSAux (c :: cs) [] =
        if pyIsSpace c then splitWSAux cs [] else splitWSAux cs [c] from rfl]
    rw [if_pos hc]
    exact ih h.2

/-- Membership characterisation of substitution directives in the final
rewrite command. -/
theorem build_gs_cmd_substitutions (fonts : List String)
    (final_pdf_path temp_in_path : String)
    (hin : isSubDirective temp_in_path = false) (f : String) :
    (subDirective f ∈ build_gs_cmd fonts final_pdf_path temp_in_path ↔
      f ∈ fonts ∧ wantsSub f = true) ∧
    (∀ s ∈ build_gs_cmd fonts final_pdf_path temp_in_path,
      isSubDirective s = true →
      ∃ g, g ∈ fonts ∧ wantsSub g = true ∧ s = subDirective g) := by
  have hpart2 : ∀ s ∈ build_gs_cmd fonts final_pdf_path temp_in_path,
      isSubDirective s = true →
      ∃ g, g ∈ fonts ∧ wantsSub g = true ∧ s = subDirective g := by
    intro s hs hdir
    unfold build_gs_cmd at hs
    rcases List.mem_append.mp hs with h | h
    · rcases List.mem_append.mp h with h | h
      · simp [gsBaseCmd_no_directive s h] at hdir
      · by_cases he : fonts.isEmpty
        · rw [if_pos he] at h
          simp at h
        · rw [if_neg he] at h
          rcases List.mem_map.mp h with ⟨g, hg, rfl⟩
          have hgf := List.mem_filter.mp hg
          exact ⟨g, hgf.1, hgf.2, rfl⟩
    · simp only [List.mem_cons, List.not_mem_nil, or_false] at h
      rcases h with rfl | rfl
      · simp [isSubDirective_output] at hdir
      · simp [hin] at hdir
  refine ⟨⟨?_, ?_⟩, hpart2⟩
  · intro hmem
    obtain ⟨g, hg, hw, heq⟩ := hpart2 _ hmem (isSubDirective_subDirective f)
    obtain rfl := subDirective_inj heq
    exact ⟨hg, hw⟩
  · rintro ⟨hf, hw⟩
    unfold build_gs_cmd
    refine List.mem_append.mpr (Or.inl (List.mem_append.mpr (Or.inr ?_)))
    rw [if_neg (fun he => by rw [List.isEmpty_iff] at he; subst he; simp at hf)]
    exact List.mem_map.mpr ⟨f, List.mem_filter.mpr ⟨hf, hw⟩, rfl⟩

/-- C1: if the final Ghostscript rewrite inside the compliance-enhancement
stage fails (the `subprocess.run` of the built command raises / exits
non-zero), `enhance_pdf_for_compliance` returns exactly its input bytes.
The stage itself is total in the model: every fallible external call it
makes is caught, so no exception reaches the caller. -/
theorem claim_C1_enhance_fallback (env : Env) (fs : FS) (input : Bytes)
    (h : env.gs (build_gs_cmd (analyze_fonts_in_pdf env (some input))
          (env.tempName ++ ".final.pdf") env.tempName) (some input) = none) :
    (enhance_pdf_for_compliance env fs input).1 = input := by
  have hread := enhance_read_after_icc env fs input
  have hread1 : fsRead (fsWrite fs env.tempName input) env.tempName = some input := by
    simp [fsRead, fsWrite]
  simp only [enhance_pdf_for_compliance]
  rw [hread, hread1, h]

/-- Witness for C1 at a concrete environment whose `gs` always fails. -/
theorem claim_C1_witness :
    witnessEnv.gs (build_gs_cmd (analyze_fonts_in_pdf witnessEnv (some [(37 : Byte)]))
        (witnessEnv.tempName ++ ".final.pdf") witnessEnv.tempName) (some [(37 : Byte)]) = none ∧
    (enhance_pdf_for_compliance witnessEnv emptyFS [(37 : Byte)]).1 = [(37 : Byte)] :=
  ⟨rfl, claim_C1_enhance_fallback witnessEnv emptyFS [(37 : Byte)] rfl⟩

/-- C2 counterexample: a request whose body has `pdfBase64: 1` (a number,
hence no non-empty `pdfBase64` *string*) and a valid `xmlBase64` gets a
500 response, not the 400 the claim demands: the truthiness check passes
for any truthy value, after which the source raises a `TypeError` (first
at the `len()` in the logging call of line 261; in this model, which does
not model logging, at the `base64.b64decode` of the non-string) and lands
in the top-level 500 handler with identical status, body and filesystem
effects. -/
theorem claim_C2_counterexample :
    (lambda_handler witnessEnv emptyFS (Except.ok (JVal.jobj
      [("pdfBase64", JVal.jint 1), ("xmlBase64", JVal.jstr "QQ==")]))).1.statusCode ≠ 400 ∧
    (lambda_handler witnessEnv emptyFS (Except.ok (JVal.jobj
      [("pdfBase64", JVal.jint 1), ("xmlBase64", JVal.jstr "QQ==")]))).1.statusCode = 500 := by
  constructor
  · decide
  · decide

/-- C2 amended: for every request whose parsed body's `pdfBase64` or
`xmlBase64` is missing or Python-falsy (in particular missing or the
empty string), the handler returns exactly the 400 error response and
leaves the filesystem untouched (no temp files, no decoding, no
embedding, no enhancement — the response is a fixed constant independent
of the external oracle). -/
theorem claim_C2_amended (env : Env) (fs : FS) (kvs : List (String × JVal))
    (h : truthy (jsonGet kvs "pdfBase64" (JVal.jstr "")) = false ∨
         truthy (jsonGet kvs "xmlBase64" (JVal.jstr "")) = false) :
    lambda_handler env fs (Except.ok (JVal.jobj kvs)) =
      (⟨400, stdHeaders, RespBody.err "Missing PDF or XML data"⟩, fs) := by
  simp only [lambda_handler]
  rw [if_pos h]

/-- Witness for the amended C2 at the empty body (both payloads missing). -/
theorem claim_C2_witness :
    (truthy (jsonGet [] "pdfBase64" (JVal.jstr "")) = false ∨
     truthy (jsonGet [] "xmlBase64" (JVal.jstr "")) = false) ∧
    lambda_handler witnessEnv emptyFS (Except.ok (JVal.jobj [])) =
      (⟨400, stdHeaders, RespBody.err "Missing PDF or XML data"⟩, emptyFS) :=
  ⟨Or.inl rfl, claim_C2_amended witnessEnv emptyFS [] (Or.inl rfl)⟩

/-- C3: on every path of `lambda_handler` (parse failure, non-object
body, validation failure, decode failure, embedding failure, and both
outcomes of the enhancement stage), the filesystem after the invocation
equals the filesystem before it, provided the invocation's four scratch
paths are fresh (which `tempfile.NamedTemporaryFile` guarantees):
no temporary file survives the response. -/
theorem claim_C3_no_temp_files (env : Env) (fs : FS) (ev : Except String JVal)
    (h1 : fs env.tempName = none)
    (h2 : fs (env.tempName ++ ".enhanced.pdf") = none)
    (h3 : fs (env.tempName ++ ".enhanced.pdf" ++ ".temp.pdf") = none)
    (h4 : fs (env.tempName ++ ".final.pdf") = none) :
    (lambda_handler env fs ev).2 = fs := by
  simp only [lambda_handler]
  cases ev with
  | error msg => rfl
  | ok v =>
    cases v with
    | jstr s => rfl
    | jbool b => rfl
    | jint n => rfl
    | jnull => rfl
    | jarr l => rfl
    | jobj kvs =>
      dsimp only
      by_cases hv : truthy (jsonGet kvs "pdfBase64" (JVal.jstr "")) = false ∨
          truthy (jsonGet kvs "xmlBase64" (JVal.jstr "")) = false
      · rw [if_pos hv]
      · rw [if_neg hv]
        cases b64decodeValue (jsonGet kvs "pdfBase64" (JVal.jstr "")) with
        | error e => rfl
        | ok pdfB =>
          dsimp only
          cases b64decodeValue (jsonGet kvs "xmlBase64" (JVal.jstr "")) with
          | error e => rfl
          | ok xmlB =>
            dsimp only
            cases env.facturx pdfB xmlB (jsonGet kvs "checkXsd" (JVal.jbool true))
                (jsonGet kvs "flavor" (JVal.jstr "factur-x"))
                (jsonGet kvs "level" (JVal.jstr "en16931")) with
            | error e => rfl
            | ok fx =>
              dsimp only
              exact enhance_restores_fs env fs fx h1 h2 h3 h4

/-- Witness for C3 on a successful end-to-end request over the empty
filesystem. -/
theorem claim_C3_witness :
    emptyFS witnessEnv.tempName = none ∧
    (lambda_handler witnessEnv emptyFS (Except.ok (JVal.jobj
      [("pdfBase64", JVal.jstr "QQ=="), ("xmlBase64", JVal.jstr "QQ==")]))).2 = emptyFS :=
  ⟨rfl, claim_C3_no_temp_files witnessEnv emptyFS _ rfl rfl rfl rfl⟩

/-- C4: for every environment, filesystem and input, the bytes returned
by the compliance-enhancement stage are identical to those returned by
the variant with the ICC-profile placeholder step removed: the final
rewrite reads only the original input temp file, and the file produced by
`create_pdf_with_icc_profiles` is never read or merged into the result. -/
theorem claim_C4_icc_discarded (env : Env) (fs : FS) (input : Bytes) :
    (enhance_pdf_for_compliance env fs input).1 =
    (enhance_without_icc_step env fs input).1 :=
  enhance_eq_without_icc env fs input

/-- C5: when both font-inspection invocations succeed,
`analyze_fonts_in_pdf` returns exactly the first fields of the non-header
lines (the first two lines are skipped) whose 8th whitespace-separated
field — the embedding-status column as the code reads it — contains `no`
after lower-casing; a font name is in the result iff such a line exists. -/
theorem claim_C5_font_parsing (env : Env) (c : Option Bytes) (fi out : String)
    (hgs : env.gsFontInfo c = some fi) (hpf : env.pdffonts c = some out) (f : String) :
    f ∈ analyze_fonts_in_pdf env c ↔
      ∃ line ∈ (splitNl out.toList).drop 2,
        8 ≤ (pySplitWS line).length ∧
        hasSubstr (((pySplitWS line).getD 7 []).map pyLowerChar) ['n', 'o'] = true ∧
        String.mk ((pySplitWS line).getD 0 []) = f := by
  unfold analyze_fonts_in_pdf
  rw [hgs, hpf]
  unfold parse_pdffonts
  simp only [List.mem_map, List.mem_filterMap]
  constructor
  · rintro ⟨l, ⟨line, hline, hlf⟩, rfl⟩
    unfold lineFont at hlf
    by_cases hany : line.any (fun c => !(pyIsSpace c)) = true
    · rw [if_pos hany] at hlf
      by_cases hcond : 8 ≤ (pySplitWS line).length ∧
          hasSubstr (((pySplitWS line).getD 7 []).map pyLowerChar) ['n', 'o'] = true
      · rw [if_pos hcond] at hlf
        exact ⟨line, hline, hcond.1, hcond.2, by rw [Option.some.inj hlf]⟩
      · rw [if_neg hcond] at hlf
        exact absurd hlf (by simp)
    · rw [if_neg hany] at hlf
      exact absurd hlf (by simp)
  · rintro ⟨line, hline, hlen, hno, rfl⟩
    refine ⟨(pySplitWS line).getD 0 [], ⟨line, hline, ?_⟩, rfl⟩
    have hany : line.any (fun c => !(pyIsSpace c)) = true := by
      by_contra hany
      have := pySplitWS_nil_of_not_any line (by simpa using hany)
      rw [this] at hlen
      simp at hlen
    unfold lineFont
    rw [if_pos hany, if_pos ⟨hlen, hno⟩]

/-- Witness for C5 on a sample `pdffonts` table. -/
theorem claim_C5_witness :
    ("Helvetica" ∈ analyze_fonts_in_pdf env5 (some []) ↔
      ∃ line ∈ (splitNl samplePdffontsOut.toList).drop 2,
        8 ≤ (pySplitWS line).length ∧
        hasSubstr (((pySplitWS line).getD 7 []).map pyLowerChar) ['n', 'o'] = true ∧
        String.mk ((pySplitWS line).getD 0 []) = "Helvetica") ∧
    "Helvetica" ∈ analyze_fonts_in_pdf env5 (some []) :=
  ⟨claim_C5_font_parsing env5 (some []) "" samplePdffontsOut rfl rfl "Helvetica", by decide⟩

/-- C6: the final rewrite command contains the substitution directive for
a font iff that font is in the non-embedded set and its lower-cased name
contains `helvetica` or `arial`; and every directive-shaped token of the
command arises that way (no other font is substituted), provided the
input path itself is not directive-shaped (true of `tempfile` names). -/
theorem claim_C6_substitutions (fonts : List String)
    (final_pdf_path temp_in_path : String)
    (hin : isSubDirective temp_in_path = false) (f : String) :
    (subDirective f ∈ build_gs_cmd fonts final_pdf_path temp_in_path ↔
      f ∈ fonts ∧ wantsSub f = true) ∧
    (∀ s ∈ build_gs_cmd fonts final_pdf_path temp_in_path,
      isSubDirective s = true →
      ∃ g, g ∈ fonts ∧ wantsSub g = true ∧ s = subDirective g) :=
  build_gs_cmd_substitutions fonts final_pdf_path temp_in_path hin f

/-- Witness for C6 on a concrete font set and temp paths. -/
theorem claim_C6_witness :
    isSubDirective "/tmp/t.pdf" = false ∧
    (subDirective "Helvetica-Bold" ∈
        build_gs_cmd ["Helvetica-Bold", "Times-Roman"] "/tmp/t.pdf.final.pdf" "/tmp/t.pdf" ↔
      "Helvetica-Bold" ∈ ["Helvetica-Bold", "Times-Roman"] ∧
        wantsSub "Helvetica-Bold" = true) :=
  ⟨rfl, (claim_C6_substitutions ["Helvetica-Bold", "Times-Roman"]
    "/tmp/t.pdf.final.pdf" "/tmp/t.pdf" rfl "Helvetica-Bold").1⟩

/-- C7: if the `gs` font-info probe or the `pdffonts` invocation fails
(raises or exits non-zero), `analyze_fonts_in_pdf` returns the empty set;
in the model the function is total, so no exception propagates and the
request continues. -/
theorem claim_C7_font_analysis_failure (env : Env) (c : Option Bytes)
    (h : env.gsFontInfo c = none ∨ env.pdffonts c = none) :
    analyze_fonts_in_pdf env c = [] := by
  unfold analyze_fonts_in_pdf
  rcases h with h | h
  · rw [h]
  · cases hg : env.gsFontInfo c with
    | none => rfl
    | some fi =>
      dsimp only
      rw [h]

/-- Witness for C7 with a failing `pdffonts`. -/
theorem claim_C7_witness :
    (env7.gsFontInfo (some []) = none ∨ env7.pdffonts (some []) = none) ∧
    analyze_fonts_in_pdf env7 (some []) = [] :=
  ⟨Or.inr rfl, claim_C7_font_analysis_failure env7 (some []) (Or.inr rfl)⟩

/-- C8: with both payloads present and decodable, a failure of the
invoice-embedding call (`generate_from_binary` raising with message
`msg`) yields a 500 response whose error body extends — hence includes —
the embedding failure's message; the filesystem is untouched and no
success response is produced. -/
theorem claim_C8_embedding_failure (env : Env) (fs : FS)
    (kvs : List (String × JVal)) (pdfB xmlB : Bytes) (msg : String)
    (hp : truthy (jsonGet kvs "pdfBase64" (JVal.jstr "")) = true)
    (hx : truthy (jsonGet kvs "xmlBase64" (JVal.jstr "")) = true)
    (hdp : b64decodeValue (jsonGet kvs "pdfBase64" (JVal.jstr "")) = Except.ok pdfB)
    (hdx : b64decodeValue (jsonGet kvs "xmlBase64" (JVal.jstr "")) = Except.ok xmlB)
    (hf : env.facturx pdfB xmlB (jsonGet kvs "checkXsd" (JVal.jbool true))
        (jsonGet kvs "flavor" (JVal.jstr "factur-x"))
        (jsonGet kvs "level" (JVal.jstr "en16931")) = Except.error msg) :
    lambda_handler env fs (Except.ok (JVal.jobj kvs)) =
      (⟨500, stdHeaders, RespBody.err ("Failed to generate Factur-X PDF: " ++ msg)⟩, fs) ∧
    ∃ t, "Failed to generate Factur-X PDF: " ++ msg = t ++ msg := by
  constructor
  · simp only [lambda_handler]
    rw [if_neg (by rw [hp, hx]; simp)]
    rw [hdp]
    dsimp only
    rw [hdx]
    dsimp only
    rw [hf]
  · exact ⟨"Failed to generate Factur-X PDF: ", rfl⟩

/-- Witness for C8 on a concrete failing embedding. -/
theorem claim_C8_witness :
    env8.facturx [(65 : Byte)] [(65 : Byte)] (JVal.jbool true) (JVal.jstr "factur-x")
        (JVal.jstr "en16931") = Except.error "XSD validation failed" ∧
    (lambda_handler env8 emptyFS (Except.ok (JVal.jobj
        [("pdfBase64", JVal.jstr "QQ=="), ("xmlBase64", JVal.jstr "QQ==")])) =
      (⟨500, stdHeaders,
        RespBody.err ("Failed to generate Factur-X PDF: " ++ "XSD validation failed")⟩, emptyFS) ∧
     ∃ t, "Failed to generate Factur-X PDF: " ++ "XSD validation failed" =
        t ++ "XSD validation failed") :=
  ⟨rfl, claim_C8_embedding_failure env8 emptyFS
    [("pdfBase64", JVal.jstr "QQ=="), ("xmlBase64", JVal.jstr "QQ==")]
    [(65 : Byte)] [(65 : Byte)] "XSD validation failed"
    (by decide) (by decide) rfl rfl rfl⟩

/-- C9: every success body's `pdfBase64` field is canonical base64:
decoding it succeeds and re-encoding the decoded bytes reproduces the
field exactly. -/
theorem claim_C9_roundtrip (env : Env) (fs : FS) (ev : Except String JVal)
    (p m : String)
    (h : (lambda_handler env fs ev).1.body = RespBody.success p m) :
    ∃ b, b64decode p = some b ∧ b64encode b = p := by
  simp only [lambda_handler] at h
  cases ev with
  | error msg => simp at h
  | ok v =>
    cases v with
    | jstr s => simp at h
    | jbool b => simp at h
    | jint n => simp at h
    | jnull => simp at h
    | jarr l => simp at h
    | jobj kvs =>
      dsimp only at h
      by_cases hv : truthy (jsonGet kvs "pdfBase64" (JVal.jstr "")) = false ∨
          truthy (jsonGet kvs "xmlBase64" (JVal.jstr "")) = false
      · rw [if_pos hv] at h
        simp at h
      · rw [if_neg hv] at h
        cases hdp : b64decodeValue (jsonGet kvs "pdfBase64" (JVal.jstr "")) with
        | error e => rw [hdp] at h; simp at h
        | ok pdfB =>
          rw [hdp] at h
          dsimp only at h
          cases hdx : b64decodeValue (jsonGet kvs "xmlBase64" (JVal.jstr "")) with
          | error e => rw [hdx] at h; simp at h
          | ok xmlB =>
            rw [hdx] at h
            dsimp only at h
            cases hfx : env.facturx pdfB xmlB (jsonGet kvs "checkXsd" (JVal.jbool true))
                (jsonGet kvs "flavor" (JVal.jstr "factur-x"))
                (jsonGet kvs "level" (JVal.jstr "en16931")) with
            | error e => rw [hfx] at h; simp at h
            | ok fx =>
              rw [hfx] at h
              dsimp only at h
              obtain ⟨h1, h2⟩ := RespBody.success.inj h
              exact ⟨(enhance_pdf_for_compliance env fs fx).1,
                by rw [← h1]; exact b64_roundtrip _, h1⟩

/-- Witness for C9 on a concrete successful request (the embedder returns
the empty PDF; the failed rewrite falls back to it; its base64 is `""`). -/
theorem claim_C9_witness :
    (lambda_handler witnessEnv emptyFS (Except.ok (JVal.jobj
        [("pdfBase64", JVal.jstr "QQ=="), ("xmlBase64", JVal.jstr "QQ==")]))).1.body =
      RespBody.success "" "Factur-X PDF generated successfully with enhanced compliance" ∧
    ∃ b, b64decode "" = some b ∧ b64encode b = "" :=
  ⟨by decide, claim_C9_roundtrip witnessEnv emptyFS (Except.ok (JVal.jobj
      [("pdfBase64", JVal.jstr "QQ=="), ("xmlBase64", JVal.jstr "QQ==")]))
    "" "Factur-X PDF generated successfully with enhanced compliance" (by decide)⟩

/-- C10: a request whose body fails to parse as JSON gets a 500 error
response, and a request whose payload fields are present, non-empty
strings of which at least one is not decodable base64 also gets a 500
error response — never a 400. -/
theorem claim_C10_malformed_500 (env : Env) (fs : FS) :
    (∀ msg, ∃ e, (lambda_handler env fs (Except.error msg)).1 =
        ⟨500, stdHeaders, RespBody.err e⟩) ∧
    (∀ kvs ps xs,
      jsonGet kvs "pdfBase64" (JVal.jstr "") = JVal.jstr ps →
      jsonGet kvs "xmlBase64" (JVal.jstr "") = JVal.jstr xs →
      ps ≠ "" → xs ≠ "" →
      (b64decode ps = none ∨ b64decode xs = none) →
      ∃ e, (lambda_handler env fs (Except.ok (JVal.jobj kvs))).1 =
        ⟨500, stdHeaders, RespBody.err e⟩) := by
  constructor
  · intro msg
    exact ⟨"Failed to generate Factur-X PDF: " ++ msg, rfl⟩
  · intro kvs ps xs hps hxs hpne hxne hdec
    simp only [lambda_handler]
    rw [hps, hxs]
    rw [if_neg (by simp [truthy, hpne, hxne])]
    rcases hdec with h | h
    · rw [show b64decodeValue (JVal.jstr ps) = Except.error "Invalid base64-encoded string"
          from by simp [b64decodeValue, h]]
      exact ⟨_, rfl⟩
    · cases hbp : b64decode ps with
      | none =>
        rw [show b64decodeValue (JVal.jstr ps) = Except.error "Invalid base64-encoded string"
            from by simp [b64decodeValue, hbp]]
        exact ⟨_, rfl⟩
      | some pb =>
        rw [show b64decodeValue (JVal.jstr ps) = Except.ok pb
            from by simp [b64decodeValue, hbp]]
        dsimp only
        rw [show b64decodeValue (JVal.jstr xs) = Except.error "Invalid base64-encoded string"
            from by simp [b64decodeValue, h]]
        exact ⟨_, rfl⟩

/-- Witness for C10: a JSON parse failure and an undecodable payload,
both landing on 500. -/
theorem claim_C10_witness :
    (∃ e, (lambda_handler witnessEnv emptyFS (Except.error "Expecting value")).1 =
        ⟨500, stdHeaders, RespBody.err e⟩) ∧
    (∃ e, (lambda_handler witnessEnv emptyFS (Except.ok (JVal.jobj
        [("pdfBase64", JVal.jstr "A"), ("xmlBase64", JVal.jstr "A")]))).1 =
        ⟨500, stdHeaders, RespBody.err e⟩) :=
  ⟨(claim_C10_malformed_500 witnessEnv emptyFS).1 "Expecting value",
   (claim_C10_malformed_500 witnessEnv emptyFS).2
     [("pdfBase64", JVal.jstr "A"), ("xmlBase64", JVal.jstr "A")] "A" "A"
     rfl rfl (by decide) (by decide) (Or.inl (by decide))⟩
